import Mathlib

/-!
Verification development for the DeePMD-kit LAMMPS adapter fragment
(`source/lmp/pair_deepmd.h`) and its exception test
(`source/api_cc/tests/test_deepmd_exception.cc`).

The header declares the adapter's data members and method signatures; the
method bodies live elsewhere in the repository.  Where a definition below
embeds behaviour whose body is absent, its doc comment starts with
`Modelled from the spec:` and names the missing piece.
-/

namespace DeepmdKit

/-! ### ErrorSignal -/

/-- The fixed library name used in every exception message
(`test_deepmd_exception.cc` expects the message to start with it). -/
def libraryName : String := "DeePMD-kit"

/-- Modelled from the spec: the body of `deepmd::deepmd_exception`
(declared in `errors.h`, not present under `src/`).  Per the spec (§4.1)
and the unit test `TestDeepmdException.deepmdexception`, constructing the
exception with message `msg` yields a `what()` string equal to the fixed
library name, the text " Error: ", and the message, unmodified. -/
def deepmd_exception_what (msg : String) : String :=
  (libraryName ++ " Error: ") ++ msg

/-! ### Compile-time precision selection (`pair_deepmd.h`, lines 23–27)

`FLOAT_PREC` is `double` when `HIGH_PREC` is defined and `float`
otherwise.  Each data member of `PairDeepMD` has an element type fixed by
the header; we record that element type as a function of the build flag,
transcribed from the declarations. -/

/-- The two floating-point element types appearing in the header. -/
inductive Prec where
  | doubleP : Prec
  | floatP : Prec
deriving DecidableEq

/-- `FLOAT_PREC`: `double` in a `HIGH_PREC` build, `float` otherwise
(`pair_deepmd.h`, lines 23–27). -/
def floatPrec (highPrec : Bool) : Prec :=
  if highPrec then Prec.doubleP else Prec.floatP

/-- Element type of `std::vector<...> fparam` (lines 74–84): follows the
build flag. -/
def fparamPrec (highPrec : Bool) : Prec := floatPrec highPrec

/-- Element type of `std::vector<...> aparam` (lines 74–84): follows the
build flag. -/
def aparamPrec (highPrec : Bool) : Prec := floatPrec highPrec

/-- Type of the threshold `eps` (lines 74–84): follows the build flag. -/
def epsPrec (highPrec : Bool) : Prec := floatPrec highPrec

/-- Type of the threshold `eps_v` (lines 74–84): follows the build flag. -/
def eps_vPrec (highPrec : Bool) : Prec := floatPrec highPrec

/-- Element type of `std::vector<std::vector<double> > all_force`
(line 61): always `double`, independent of the build flag. -/
def all_forcePrec (_highPrec : Bool) : Prec := Prec.doubleP

/-- Element type of `double **scale` (line 53): always `double`. -/
def scalePrec (_highPrec : Bool) : Prec := Prec.doubleP

/-- Element type of `double *stdfsend` (line 115): always `double`. -/
def stdfsendPrec (_highPrec : Bool) : Prec := Prec.doubleP

/-- Element type of `double *stdfrecv` (line 115): always `double`. -/
def stdfrecvPrec (_highPrec : Bool) : Prec := Prec.doubleP

/-! ### DeviationReducer -/

/-- A per-atom force vector (three spatial components), modelled over `ℚ`
so that concrete committee outputs evaluate exactly. -/
abbrev Vec3 := ℚ × ℚ × ℚ

/-- Modelled from the spec: the mean-force step of the deviation reducer
(§4.4 step 1; the body of `compute` using `deep_pot_model_devi` is not
under `src/`).  Componentwise arithmetic mean of the per-model forces for
one atom. -/
def meanForce (fs : List Vec3) : Vec3 :=
  ((fs.map fun f => f.1).sum / fs.length,
   (fs.map fun f => f.2.1).sum / fs.length,
   (fs.map fun f => f.2.2).sum / fs.length)

/-- Squared Euclidean norm of a force vector (sum over the three spatial
components). -/
def normSq (v : Vec3) : ℚ :=
  v.1 ^ 2 + v.2.1 ^ 2 + v.2.2 ^ 2

/-- Sum over models of the squared norm of that model's force minus the
committee mean, for one atom. -/
def devSumSq (fs : List Vec3) : ℚ :=
  (fs.map fun f => normSq (f.1 - (meanForce fs).1, f.2.1 - (meanForce fs).2.1,
      f.2.2 - (meanForce fs).2.2)).sum

/-- Modelled from the spec: the per-atom force-deviation scalar (§4.4
step 2; the reducer body is not under `src/`).  The square of the squared
residual norms is averaged over the models and a square root is taken; the
normalisation by the number of models (with the square summed over the
three components) is fixed by the spec's own end-to-end scenario (§8),
which requires deviation exactly 0.1 for two models with residuals ±0.1
along one axis. -/
noncomputable def devi (fs : List Vec3) : ℝ :=
  Real.sqrt ((devSumSq fs / fs.length : ℚ) : ℝ)

/-- Modelled from the spec: classification of one atom's deviation against
the threshold `eps` (§4.4 step 3: values at/above threshold are
flagged). -/
def flagged (fs : List Vec3) (eps : ℚ) : Prop :=
  (eps : ℝ) ≤ devi fs

/-- Modelled from the spec: committee evaluation's mean-force output for
one atom (§4.2, §4.4): run every model on the frame and take the provided
mean.  `F` abstracts the frame-and-conditioning input. -/
def evalCommitteeForce {F : Type} (models : List (F → Vec3)) (fr : F) : Vec3 :=
  meanForce (models.map fun m => m fr)

/-- Modelled from the spec: committee evaluation's per-atom deviation for
one atom (§4.4). -/
noncomputable def evalCommitteeDevi {F : Type} (models : List (F → Vec3)) (fr : F) : ℝ :=
  devi (models.map fun m => m fr)

/-- Modelled from the spec: single-model evaluation's force output for one
atom (§4.2 `evaluate`): the one model's prediction on the frame. -/
def evalSingleForce {F : Type} (m : F → Vec3) (fr : F) : Vec3 :=
  m fr

/-! ### ModelEnsemble failure propagation -/

/-- Modelled from the spec: `evaluate_committee` with fallible member
models (§4.2: any per-model failure aborts the whole committee evaluation
with no result returned; the ensemble body is not under `src/`).  Models
are run in order; the first failure's message becomes the whole
evaluation's error. -/
def evaluate_committee {F R : Type} :
    List (F → Except String R) → F → Except String (List R)
  | [], _ => Except.ok []
  | m :: ms, fr =>
    match m fr with
    | Except.error e => Except.error e
    | Except.ok r =>
      match evaluate_committee ms fr with
      | Except.error e => Except.error e
      | Except.ok rs => Except.ok (r :: rs)

/-! ### GhostCommExchanger -/

/-- Modelled from the spec: `pack_reverse_comm` (declared at
`pair_deepmd.h` line 43; body not under `src/`).  Packs the per-ghost-atom
scalar deviation values for `n` consecutive atoms starting at `first`
into an outgoing buffer (§4.5). -/
def pack_reverse_comm (stdf : ℕ → ℚ) (n first : ℕ) : List ℚ :=
  (List.range n).map fun i => stdf (first + i)

/-- Modelled from the spec: `unpack_reverse_comm` (declared at
`pair_deepmd.h` line 44; body not under `src/`).  For each buffer slot
`i`, accumulates `buf[i]` onto the owning rank's value at local index
`lst i` (§4.5: the receiving rank unpacks and accumulates). -/
def unpack_reverse_comm (stdf : ℕ → ℚ) (lst : ℕ → ℕ) (buf : List ℚ) : ℕ → ℚ :=
  (List.range buf.length).foldl
    (fun s i => Function.update s (lst i) (s (lst i) + buf.getD i 0)) stdf

/-! ### RestartCodec -/

/-- The adapter configuration persisted through the restart stream: the
flattened per-type-pair scale table (row-major, `numb_types ^ 2` values,
from `double **scale`, line 53) together with the model count and the two
conditioning arities (`numb_models`, `dim_fparam`, `dim_aparam`). -/
structure RestartState where
  numb_types : ℕ
  scaleValues : List ℚ
  numb_models : ℕ
  dim_fparam : ℕ
  dim_aparam : ℕ
deriving DecidableEq, Repr

/-- A restart state is well formed when its flattened scale table has one
value per ordered type pair. -/
def RestartState.wf (s : RestartState) : Prop :=
  s.scaleValues.length = s.numb_types * s.numb_types

/-- Modelled from the spec: `write_restart` (declared at `pair_deepmd.h`
line 40; body not under `src/`).  Emits a fixed-order block (§4.6, §6):
the type count, then the scale-table values, then model count and the two
arities, as a stream of scalar fields. -/
def write_restart (s : RestartState) : List ℚ :=
  (s.numb_types : ℚ) :: s.scaleValues ++
    [(s.numb_models : ℚ), (s.dim_fparam : ℚ), (s.dim_aparam : ℚ)]

/-- Modelled from the spec: `read_restart` (declared at `pair_deepmd.h`
line 41; body not under `src/`).  Reads back the block written by
`write_restart` on an instance configured with `numb_types = n`; a
recorded type count different from `n` raises ErrorSignal rather than
reading out of bounds (§4.6).  Returns the recovered state together with
the unconsumed remainder of the stream. -/
def read_restart (n : ℕ) (stream : List ℚ) : Except String (RestartState × List ℚ) :=
  match stream with
  | [] => Except.error (deepmd_exception_what "restart stream truncated")
  | nt :: rest =>
    if nt ≠ (n : ℚ) then
      Except.error (deepmd_exception_what "restart numb_types mismatch")
    else if n * n + 3 ≤ rest.length then
      match rest.drop (n * n) with
      | nm :: df :: da :: rem =>
        if 0 ≤ nm ∧ nm.den = 1 ∧ 0 ≤ df ∧ df.den = 1 ∧ 0 ≤ da ∧ da.den = 1 then
          Except.ok (⟨n, rest.take (n * n), nm.num.toNat, df.num.toNat, da.num.toNat⟩, rem)
        else Except.error (deepmd_exception_what "restart metadata corrupt")
      | _ => Except.error (deepmd_exception_what "restart stream truncated")
    else Except.error (deepmd_exception_what "restart stream truncated")

/-! ### ConditioningBuilder source selection -/

/-- The conditioning-source part of the adapter's configuration: an
optional external compute id (`compute_id`, line 94) and an optional TTM
fix id (`ttm_fix_id`, line 112). -/
structure CondConfig where
  compute_source : Option String
  ttm_source : Option String

/-- Modelled from the spec: the setup-time selection of the conditioning
source (the `settings` body is not under `src/`).  Configuring both an
external-compute source and a TTM-coupled source raises a configuration
error at setup (§8); otherwise the flags `do_compute` (line 93) and
`do_ttm` (line 111) record the chosen source. -/
def setupConditioning (c : CondConfig) : Except String (Bool × Bool) :=
  match c.compute_source, c.ttm_source with
  | some _, some _ =>
    Except.error
      (deepmd_exception_what "external compute and TTM conditioning sources are mutually exclusive")
  | some _, none => Except.ok (true, false)
  | none, some _ => Except.ok (false, true)
  | none, none => Except.ok (false, false)

/-! ### Mode flags -/

/-- The adapter state components governed by the mode invariant: the model
count (line 58), the deviation-output cadence (line 63), the three mode
flags (lines 70–72), and a step counter standing for the per-step compute
activity that leaves all of these configuration fields unchanged. -/
structure AdapterState where
  numb_models : ℕ
  out_freq : ℕ
  single_model : Bool
  multi_models_mod_devi : Bool
  multi_models_no_mod_devi : Bool
  steps_done : ℕ
deriving DecidableEq, Repr

/-- Modelled from the spec: the setup-time assignment of the mode flags
(the `settings` body is not under `src/`).  At least one model must be
given; one model selects `single_model`, several select the
model-deviation mode when deviation output is enabled (`out_freq > 0`,
§3: a zero cadence disables deviation logging) and the plain multi-model
mode otherwise. -/
def setupModes (numb_models out_freq : ℕ) : Except String AdapterState :=
  if numb_models = 0 then
    Except.error (deepmd_exception_what "no model file given")
  else
    Except.ok ⟨numb_models, out_freq, numb_models == 1,
      decide (1 < numb_models) && decide (0 < out_freq),
      decide (1 < numb_models) && (out_freq == 0), 0⟩

/-- A per-step compute call: advances the step counter and touches none of
the configuration fields (the mode flags are assigned only in
`settings`). -/
def computeStep (s : AdapterState) : AdapterState :=
  ⟨s.numb_models, s.out_freq, s.single_model, s.multi_models_mod_devi,
    s.multi_models_no_mod_devi, s.steps_done + 1⟩

/-- The adapter states reachable after setup: the result of `setupModes`
and anything obtained from a reachable state by compute steps. -/
inductive Reachable : AdapterState → Prop where
  | setup (numb_models out_freq : ℕ) (s : AdapterState) :
      setupModes numb_models out_freq = Except.ok s → Reachable s
  | step (s : AdapterState) : Reachable s → Reachable (computeStep s)

/-- The mode invariant (§3): exactly one of the three mode flags is set,
at least one model is loaded, and `single_model` holds exactly for a
one-model committee. -/
def ModeInv (s : AdapterState) : Prop :=
  ((s.single_model ∧ ¬s.multi_models_mod_devi ∧ ¬s.multi_models_no_mod_devi) ∨
   (¬s.single_model ∧ s.multi_models_mod_devi ∧ ¬s.multi_models_no_mod_devi) ∨
   (¬s.single_model ∧ ¬s.multi_models_mod_devi ∧ s.multi_models_no_mod_devi)) ∧
  1 ≤ s.numb_models ∧ (s.single_model = true ↔ s.numb_models = 1)

/-! ## Claims -/

/-- C1: raising the library's exception with a message `m` yields a
description exactly equal to the fixed library prefix "DeePMD-kit",
followed by " Error: ", followed by `m`, with no truncation and no
transformation. -/
theorem C1_error_signal_message (m : String) :
    deepmd_exception_what m = "DeePMD-kit Error: " ++ m := rfl

/-- C10 counterexample: in the build without `HIGH_PREC`, the per-model
force storage `all_force` and the ghost-exchange deviation buffer
`stdfsend` carry `double` values while the compile-time-selected
precision `FLOAT_PREC` is `float`, so not every component carries the one
selected precision. -/
theorem C10_precision_counterexample :
    all_forcePrec false ≠ floatPrec false ∧ stdfsendPrec false ≠ floatPrec false := by
  exact ⟨fun h => Prec.noConfusion h, fun h => Prec.noConfusion h⟩

/-- C10 (amended): in every build, the conditioning vectors `fparam` and
`aparam` and the thresholds `eps` and `eps_v` carry the one
compile-time-selected precision, while the per-model force storage
`all_force`, the scale table `scale`, and the ghost-exchange deviation
buffers `stdfsend`/`stdfrecv` always carry `double`, independent of the
selected precision. -/
theorem C10_precision_amended (highPrec : Bool) :
    fparamPrec highPrec = floatPrec highPrec ∧
    aparamPrec highPrec = floatPrec highPrec ∧
    epsPrec highPrec = floatPrec highPrec ∧
    eps_vPrec highPrec = floatPrec highPrec ∧
    all_forcePrec highPrec = Prec.doubleP ∧
    scalePrec highPrec = Prec.doubleP ∧
    stdfsendPrec highPrec = Prec.doubleP ∧
    stdfrecvPrec highPrec = Prec.doubleP := by
  cases highPrec <;> exact ⟨rfl, rfl, rfl, rfl, rfl, rfl, rfl, rfl⟩

/-- C2: for a committee of two models returning forces `+d` and `-d` for
an atom, the mean force returned to the host is `0` and the per-atom
deviation produced by the RMS formula equals the magnitude of `d`. -/
theorem C2_two_model_deviation (dx dy dz : ℚ) :
    meanForce [(dx, dy, dz), (-dx, -dy, -dz)] = (0, 0, 0) ∧
    devi [(dx, dy, dz), (-dx, -dy, -dz)] =
      Real.sqrt (((dx ^ 2 + dy ^ 2 + dz ^ 2 : ℚ) : ℝ)) := by
  have hmean : meanForce [(dx, dy, dz), (-dx, -dy, -dz)] = (0, 0, 0) := by
    simp [meanForce]
  refine ⟨hmean, ?_⟩
  have hq : devSumSq [(dx, dy, dz), (-dx, -dy, -dz)] /
      (([(dx, dy, dz), (-dx, -dy, -dz)] : List Vec3).length : ℚ) =
      dx ^ 2 + dy ^ 2 + dz ^ 2 := by
    simp [devSumSq, normSq, hmean]
  unfold devi
  rw [hq]

/-- C3: a committee of exactly one model produces the same mean-force
output as single-model evaluation of that model on the same frame and
conditioning, and its per-atom deviation is zero. -/
theorem C3_single_model_committee {F : Type} (m : F → Vec3) (fr : F) :
    evalCommitteeForce [m] fr = evalSingleForce m fr ∧
    evalCommitteeDevi [m] fr = 0 := by
  have hmean : meanForce [m fr] = m fr := by
    simp [meanForce]
  constructor
  · simpa [evalCommitteeForce, evalSingleForce] using hmean
  · have hq : devSumSq [m fr] = 0 := by
      simp [devSumSq, hmean, normSq]
    simp [evalCommitteeDevi, devi, hq]

/-- Per-atom forces predicted by committee model A in the spec's
end-to-end scenario: `[1, 0, 0]` for each of the four atoms. -/
def modelAForce (_atom : Fin 4) : Vec3 := (1, 0, 0)

/-- Per-atom forces predicted by committee model B in the spec's
end-to-end scenario: `[1.2, 0, 0]` for each of the four atoms. -/
def modelBForce (_atom : Fin 4) : Vec3 := (6 / 5, 0, 0)

/-- The two-model committee output for one atom of the end-to-end
scenario. -/
def scenarioForces (atom : Fin 4) : List Vec3 :=
  [modelAForce atom, modelBForce atom]

/-- C9 counterexample: in the end-to-end scenario the per-atom deviation
is exactly `0.1`, equal to the threshold `eps = 0.1`, so under the
claim's own at-or-above-threshold rule the atom IS flagged, contradicting
the claim that it is not flagged. -/
theorem C9_scenario_counterexample :
    devi (scenarioForces 0) = 1 / 10 ∧ flagged (scenarioForces 0) (1 / 10) := by
  have hmean : meanForce (scenarioForces 0) = (11 / 10, 0, 0) := by
    simp [scenarioForces, modelAForce, modelBForce, meanForce]
    norm_num
  have hq : devSumSq (scenarioForces 0) /
      ((scenarioForces 0).length : ℚ) = 1 / 100 := by
    norm_num [devSumSq, normSq, meanForce, scenarioForces, modelAForce, modelBForce]
  have hd : devi (scenarioForces 0) = 1 / 10 := by
    unfold devi
    rw [hq]
    rw [show ((( 1 / 100 : ℚ)) : ℝ) = (1 / 10 : ℝ) ^ 2 by norm_num]
    exact Real.sqrt_sq (by norm_num)
  exact ⟨hd, by rw [flagged, hd]; norm_num⟩

/-- C9 (amended): in the end-to-end scenario (4 atoms, 2 models, model A
predicting `[1,0,0]` and model B `[1.2,0,0]`, thresholds
`eps = eps_v = 0.1`) every atom's mean force is `[1.1, 0, 0]` and its
deviation is exactly `0.1`; since the deviation equals `eps` and an atom
is flagged exactly when its deviation is at or above `eps` (comparison
with `≥`), every atom IS flagged. -/
theorem C9_scenario_amended (atom : Fin 4) :
    meanForce (scenarioForces atom) = (11 / 10, 0, 0) ∧
    devi (scenarioForces atom) = 1 / 10 ∧
    flagged (scenarioForces atom) (1 / 10) ∧
    (∀ fs eps, flagged fs eps ↔ (eps : ℝ) ≤ devi fs) := by
  have hmean : meanForce (scenarioForces atom) = (11 / 10, 0, 0) := by
    simp [scenarioForces, modelAForce, modelBForce, meanForce]
    norm_num
  have hq : devSumSq (scenarioForces atom) /
      ((scenarioForces atom).length : ℚ) = 1 / 100 := by
    norm_num [devSumSq, normSq, meanForce, scenarioForces, modelAForce, modelBForce]
  have hd : devi (scenarioForces atom) = 1 / 10 := by
    unfold devi
    rw [hq]
    rw [show ((( 1 / 100 : ℚ)) : ℝ) = (1 / 10 : ℝ) ^ 2 by norm_num]
    exact Real.sqrt_sq (by norm_num)
  exact ⟨hmean, hd, by rw [flagged, hd]; norm_num, fun fs eps => Iff.rfl⟩

/-- Folding reverse-comm accumulation over a list of slots none of which
targets local index `j` leaves the value at `j` unchanged. -/
theorem unpackFold_eq_of_not_target (lst : ℕ → ℕ) (buf : List ℚ) :
    ∀ (l : List ℕ) (s : ℕ → ℚ) (j : ℕ), (∀ i ∈ l, lst i ≠ j) →
      l.foldl (fun s i => Function.update s (lst i) (s (lst i) + buf.getD i 0)) s j
        = s j := by
  intro l
  induction l with
  | nil =>
    intro s j _
    rfl
  | cons a l ih =>
    intro s j h
    rw [List.foldl_cons, ih _ j (fun i hi => h i (List.mem_cons_of_mem a hi))]
    exact Function.update_noteq (Ne.symm (h a (List.mem_cons_self a l))) _ s

/-- Folding reverse-comm accumulation reads the buffer only at the slots
being folded, so two buffers agreeing on those slots yield the same
result. -/
theorem unpackFold_congr (lst : ℕ → ℕ) (buf1 buf2 : List ℚ) :
    ∀ (l : List ℕ) (s : ℕ → ℚ), (∀ i ∈ l, buf1.getD i 0 = buf2.getD i 0) →
      l.foldl (fun s i => Function.update s (lst i) (s (lst i) + buf1.getD i 0)) s =
        l.foldl (fun s i => Function.update s (lst i) (s (lst i) + buf2.getD i 0)) s := by
  intro l
  induction l with
  | nil =>
    intro s _
    rfl
  | cons a l ih =>
    intro s h
    rw [List.foldl_cons, List.foldl_cons, h a (List.mem_cons_self a l),
      ih _ (fun i hi => h i (List.mem_cons_of_mem a hi))]

/-- The packed buffer holds one scalar per ghost atom. -/
theorem pack_reverse_comm_length (stdf : ℕ → ℚ) (n first : ℕ) :
    (pack_reverse_comm stdf n first).length = n := by
  simp [pack_reverse_comm]

/-- Reading packed slot `i` recovers the `i`-th ghost atom's value. -/
theorem pack_reverse_comm_getD (stdf : ℕ → ℚ) (n first i : ℕ) (h : i < n) :
    (pack_reverse_comm stdf n first).getD i 0 = stdf (first + i) := by
  rw [List.getD_eq_getElem _ _ (by simpa [pack_reverse_comm] using h)]
  simp [pack_reverse_comm]

/-- Unpacking a packed buffer accumulates each ghost atom's sent value
onto the owning rank's slot for it, provided distinct buffer slots target
distinct local indices. -/
theorem unpack_pack_accumulates (stdf stdf0 : ℕ → ℚ) (lst : ℕ → ℕ) (first : ℕ) :
    ∀ n, (∀ i < n, ∀ j < n, lst i = lst j → i = j) →
      ∀ i < n,
        unpack_reverse_comm stdf0 lst (pack_reverse_comm stdf n first) (lst i) =
          stdf0 (lst i) + stdf (first + i) := by
  intro n
  induction n with
  | zero =>
    intro _ i hi
    exact absurd hi (by omega)
  | succ n ih =>
    intro hinj i hi
    unfold unpack_reverse_comm
    rw [pack_reverse_comm_length, List.range_succ n, List.foldl_append]
    rw [unpackFold_congr lst (pack_reverse_comm stdf (n + 1) first)
      (pack_reverse_comm stdf n first) (List.range n) stdf0 ?_]
    · have hu : (List.range n).foldl
          (fun s i2 => Function.update s (lst i2)
            (s (lst i2) + (pack_reverse_comm stdf n first).getD i2 0)) stdf0 =
          unpack_reverse_comm stdf0 lst (pack_reverse_comm stdf n first) := by
        unfold unpack_reverse_comm
        rw [pack_reverse_comm_length]
      rw [List.foldl_cons, List.foldl_nil, hu]
      by_cases hin : i = n
      · subst hin
        have hnot : unpack_reverse_comm stdf0 lst (pack_reverse_comm stdf i first)
            (lst i) = stdf0 (lst i) := by
          unfold unpack_reverse_comm
          rw [pack_reverse_comm_length]
          refine unpackFold_eq_of_not_target lst _ (List.range i) stdf0 (lst i) ?_
          intro i2 hi2 hcon
          have h2 : i2 < i := List.mem_range.mp hi2
          have := hinj i2 (by omega) i (by omega) hcon
          omega
        rw [Function.update_same, hnot,
          pack_reverse_comm_getD stdf (i + 1) first i (by omega)]
      · have hilt : i < n := by omega
        have hne : lst i ≠ lst n := fun hcon => hin (hinj i (by omega) n (by omega) hcon)
        rw [Function.update_noteq hne]
        exact ih (fun a ha b hb hab => hinj a (by omega) b (by omega) hab) i hilt
    · intro i2 hi2
      have h2 : i2 < n := List.mem_range.mp hi2
      rw [pack_reverse_comm_getD stdf (n + 1) first i2 (by omega),
        pack_reverse_comm_getD stdf n first i2 h2]

/-- C4: packing the per-ghost-atom deviation values on the sending rank
and unpacking them on the owning rank (whose corresponding slots start at
zero) reproduces the original values exactly, for every ghost count
including zero; with zero ghosts the owner's array is unchanged. -/
theorem C4_ghost_roundtrip (stdf stdf0 : ℕ → ℚ) (lst : ℕ → ℕ) (n first : ℕ)
    (hinj : ∀ i < n, ∀ j < n, lst i = lst j → i = j)
    (hzero : ∀ i < n, stdf0 (lst i) = 0) :
    (∀ i < n,
      unpack_reverse_comm stdf0 lst (pack_reverse_comm stdf n first) (lst i) =
        stdf (first + i)) ∧
    unpack_reverse_comm stdf0 lst (pack_reverse_comm stdf 0 first) = stdf0 := by
  constructor
  · intro i hi
    rw [unpack_pack_accumulates stdf stdf0 lst first n hinj i hi, hzero i hi,
      zero_add]
  · rfl

/-- C4 witness: three ghost values 10, 11, 12 packed from offset 10 with
the identity owner map land unchanged on a zero-initialised owner
array. -/
theorem C4_ghost_roundtrip_witness :
    unpack_reverse_comm (fun _ => 0) (fun i => i)
      (pack_reverse_comm (fun i => (i : ℚ)) 3 10) 1 = 11 := by
  have h := (C4_ghost_roundtrip (fun i => (i : ℚ)) (fun _ => 0) (fun i => i) 3 10
    (fun i _ j _ hij => hij) (fun i _ => rfl)).1 1 (by omega)
  norm_num at h
  exact h

/-- C5: writing a well-formed adapter configuration to the restart stream
and reading it back on a fresh instance with matching `numb_types`
recovers the values exactly and consumes exactly the written fields,
leaving any trailing stream content untouched; reading with a mismatched
`numb_types` raises ErrorSignal instead of reading out of bounds. -/
theorem C5_restart_roundtrip (s : RestartState) (rest : List ℚ) (hwf : s.wf) :
    read_restart s.numb_types (write_restart s ++ rest) = Except.ok (s, rest) ∧
    (∀ m : ℕ, m ≠ s.numb_types →
      read_restart m (write_restart s ++ rest) =
        Except.error (deepmd_exception_what "restart numb_types mismatch")) := by
  obtain ⟨nt, sv, nm, df, da⟩ := s
  have hlen : sv.length = nt * nt := hwf
  have hstream : write_restart ⟨nt, sv, nm, df, da⟩ ++ rest =
      (nt : ℚ) :: (sv ++ ([(nm : ℚ), (df : ℚ), (da : ℚ)] ++ rest)) := by
    simp [write_restart]
  have hdrop : (sv ++ ([(nm : ℚ), (df : ℚ), (da : ℚ)] ++ rest)).drop (nt * nt) =
      (nm : ℚ) :: (df : ℚ) :: (da : ℚ) :: rest := by
    rw [← hlen, List.drop_left]
    rfl
  have htake : (sv ++ ([(nm : ℚ), (df : ℚ), (da : ℚ)] ++ rest)).take (nt * nt) = sv := by
    rw [← hlen, List.take_left]
  constructor
  · rw [hstream]
    unfold read_restart
    dsimp only
    rw [if_neg (by simp)]
    rw [if_pos (by simp only [List.length_append, List.length_cons, hlen]; omega)]
    rw [hdrop]
    dsimp only
    rw [if_pos (by simp)]
    rw [htake]
    simp
  · intro m hm
    have hnm2 : nt ≠ m := fun hc => hm hc.symm
    have hcast : ((nt : ℚ)) ≠ ((m : ℚ)) := by exact_mod_cast hnm2
    rw [hstream]
    unfold read_restart
    dsimp only
    rw [if_pos hcast]

/-- C5 witness: a concrete two-type scale table with metadata survives
the round trip with trailing stream content preserved, and reading it on
an instance configured for three types raises the ErrorSignal message. -/
theorem C5_restart_roundtrip_witness :
    read_restart 2 (write_restart ⟨2, [1, 2, 3, 4], 3, 1, 0⟩ ++ [7]) =
      Except.ok (⟨2, [1, 2, 3, 4], 3, 1, 0⟩, [7]) ∧
    read_restart 3 (write_restart ⟨2, [1, 2, 3, 4], 3, 1, 0⟩ ++ [7]) =
      Except.error (deepmd_exception_what "restart numb_types mismatch") := by
  have h := C5_restart_roundtrip ⟨2, [1, 2, 3, 4], 3, 1, 0⟩ [7] rfl
  exact ⟨h.1, h.2 3 (by decide)⟩

/-- C6: if any committee member's evaluation fails, the whole committee
evaluation aborts with the originating model's message and returns no
partial result; a successful committee evaluation returns one result per
model, so the adapter never evaluates a proper subset of the committee. -/
theorem C6_committee_failure_aborts {F R : Type}
    (ms : List (F → Except String R)) (fr : F) :
    (∀ rs, evaluate_committee ms fr = Except.ok rs →
      rs.length = ms.length ∧ ∀ m ∈ ms, ∃ r, m fr = Except.ok r) ∧
    (∀ (i : Fin ms.length) (e : String), (ms.get i) fr = Except.error e →
      (∀ j : Fin ms.length, (j : ℕ) < (i : ℕ) → ∃ r, (ms.get j) fr = Except.ok r) →
      evaluate_committee ms fr = Except.error e) := by
  induction ms with
  | nil =>
    constructor
    · intro rs h
      simp only [evaluate_committee, Except.ok.injEq] at h
      subst h
      exact ⟨rfl, by simp⟩
    · intro i
      exact absurd i.isLt (by simp)
  | cons m tl ih =>
    constructor
    · intro rs h
      cases hm : m fr with
      | error e => simp [evaluate_committee, hm] at h
      | ok r =>
        cases hrec : evaluate_committee tl fr with
        | error e => simp [evaluate_committee, hm, hrec] at h
        | ok rs2 =>
          have h2 := ih.1 rs2 hrec
          simp only [evaluate_committee, hm, hrec, Except.ok.injEq] at h
          subst h
          refine ⟨by simp [h2.1], ?_⟩
          intro m2 hm2
          rcases List.mem_cons.mp hm2 with h3 | h3
          · subst h3
            exact ⟨r, hm⟩
          · exact h2.2 m2 h3
    · rintro ⟨iv, hi⟩ e he hpre
      cases iv with
      | zero =>
        simp only [List.get] at he
        simp [evaluate_committee, he]
      | succ k =>
        obtain ⟨r, hr⟩ := hpre ⟨0, by omega⟩ (by simp)
        simp only [List.get] at hr he
        have hk : k < tl.length := by simpa using hi
        have hrec : evaluate_committee tl fr = Except.error e := by
          refine ih.2 ⟨k, hk⟩ e he ?_
          intro j hj
          obtain ⟨r2, hr2⟩ := hpre
            ⟨(j : ℕ) + 1, by have hjl := j.isLt; simp only [List.length_cons]; omega⟩
            (by simpa using hj)
          exact ⟨r2, by simpa using hr2⟩
        simp [evaluate_committee, hr, hrec]

/-- C6 witness: a concrete three-model committee whose second model fails
aborts with that model's message. -/
theorem C6_committee_failure_aborts_witness :
    evaluate_committee
      [fun _ => Except.ok (1 : ℕ), fun _ => Except.error "model failure",
        fun _ => Except.ok 2] () = Except.error "model failure" := by
  refine (C6_committee_failure_aborts
    [fun _ => Except.ok (1 : ℕ), fun _ => Except.error "model failure",
      fun _ => Except.ok 2] ()).2 ⟨1, by simp⟩ "model failure" rfl ?_
  intro j hj
  obtain ⟨jv, hjl⟩ := j
  have hj1 : jv < 1 := hj
  cases jv with
  | zero => exact ⟨1, rfl⟩
  | succ k => exact absurd hj1 (by omega)

/-- C7: configuring both an external-compute conditioning source and a
TTM-coupled conditioning source raises ErrorSignal at setup, and no
configuration accepted by setup has `do_compute` and `do_ttm` both
set. -/
theorem C7_conditioning_mutual_exclusion (c : CondConfig) :
    (c.compute_source.isSome = true → c.ttm_source.isSome = true →
      setupConditioning c = Except.error (deepmd_exception_what
        "external compute and TTM conditioning sources are mutually exclusive")) ∧
    (∀ dc dt, setupConditioning c = Except.ok (dc, dt) →
      ¬(dc = true ∧ dt = true)) := by
  obtain ⟨cs, ts⟩ := c
  cases cs <;> cases ts <;> simp [setupConditioning]

/-- C7 witness: the concrete configuration naming both sources is
rejected at setup with the ErrorSignal message. -/
theorem C7_conditioning_mutual_exclusion_witness :
    setupConditioning ⟨some "cmp", some "ttm_fix"⟩ = Except.error
      (deepmd_exception_what
        "external compute and TTM conditioning sources are mutually exclusive") :=
  (C7_conditioning_mutual_exclusion ⟨some "cmp", some "ttm_fix"⟩).1 rfl rfl

/-- C8: every adapter state reachable after setup satisfies the mode
invariant: exactly one of `single_model`, `multi_models_mod_devi`,
`multi_models_no_mod_devi` holds, at least one model is loaded, and
`single_model` holds exactly when one model is loaded; compute steps
preserve the invariant. -/
theorem C8_mode_invariant (s : AdapterState) (h : Reachable s) : ModeInv s := by
  induction h with
  | setup nm of s hs =>
    by_cases hnm : nm = 0
    · rw [setupModes, if_pos hnm] at hs
      exact Except.noConfusion hs
    · rw [setupModes, if_neg hnm] at hs
      injection hs with hs
      subst hs
      refine ⟨?_, Nat.one_le_iff_ne_zero.mpr hnm, by simp⟩
      by_cases h1 : nm = 1
      · subst h1
        simp
      · by_cases h2 : 0 < of
        · refine Or.inr (Or.inl ?_)
          simp [h1]
          omega
        · refine Or.inr (Or.inr ?_)
          simp [h1]
          omega
  | step s _ ih =>
    exact ⟨ih.1, ih.2.1, ih.2.2⟩

/-- C8 witness: the state set up from two models with deviation output
every ten steps satisfies the mode invariant, as does its successor after
one compute step. -/
theorem C8_mode_invariant_witness :
    ModeInv ⟨2, 10, false, true, false, 0⟩ ∧
    ModeInv (computeStep ⟨2, 10, false, true, false, 0⟩) := by
  have h0 : Reachable ⟨2, 10, false, true, false, 0⟩ :=
    Reachable.setup 2 10 _ (by rfl)
  exact ⟨C8_mode_invariant _ h0, C8_mode_invariant _ (Reachable.step _ h0)⟩

end DeepmdKit
